import Mathlib

/-!
Shallow embedding of the archive-to-plot data pipeline implemented in
`src/pages/utils/signal_processing_utils.py`.

Member files are modelled after the CSV layer: a file is the list of its
parsed rows, each row the list of its string fields.  Python exceptions are
modelled with `Except PyErr`; `KeyError` stands for a missing dictionary key,
a missing pandas column, or a missing archive member, `ValueError` for the
explicit `raise ValueError` sites (the `BadZipFile`/`binascii.Error` decode
failures are upstream of the decoded-archive values this embedding starts
from and are caught by the same handler as `ValueError`).

Floating point is modelled with `ℚ`: every constant the layout engine
manipulates (multiples of 0.05, rounded to two decimals) is exactly
representable in both IEEE double and `ℚ`, so no claim below depends on
rounding error.  Python `set` iteration order is unspecified (CPython's
string hashing is salted), so the axis-position map is analysed over every
admissible enumeration of the distinct names (`is_set_enum`); the executable
pipeline instance fixes first-seen order (`dedupFirst`), one admissible
choice.
-/

deriving instance DecidableEq for Except

namespace SegMem

/-- One parsed CSV row: the list of its string fields. -/
abbrev Row := List String

/-- One member file of the archive, decoded into CSV rows. -/
abbrev CsvFile := List Row

/-- Python exception kinds relevant to the pipeline. -/
inductive PyErr where
  | keyError
  | valueError
deriving DecidableEq

/-- Python `not field.strip()`: a field is blank when all its characters are
whitespace (so stripping leaves the empty, falsy string). -/
def field_blank (field : String) : Bool :=
  field.data.all (fun c => c.isWhitespace)

/-- Line 120: `not any(field.strip() for field in row)` — a row is empty when
every field is empty or whitespace-only. -/
def is_empty_row (row : Row) : Bool :=
  row.all field_blank

/-- Python `s.lower().endswith(pat)` for an all-lowercase `pat`, spelled over
the character list so it evaluates in the kernel. -/
def ends_with_ci (s pat : String) : Bool :=
  let sl := s.data.map Char.toLower
  decide (sl.drop (sl.length - pat.data.length) = pat.data)

/-- Line 566: `name.replace('y', 'yaxis')` — the pattern is a single
character, so the replacement acts independently on each character. -/
def replace_y_to_yaxis (s : String) : String :=
  ⟨s.data.flatMap (fun c => if c = 'y' then "yaxis".data else [c])⟩

/-- First-seen-order deduplication, used to model both Python
`dict.fromkeys(...)` (which guarantees this order) and the `set(...)` values
the layout engine enumerates (whose iteration order CPython leaves
unspecified; first-seen order is the determinization used throughout). -/
def dedup_aux (seen : List String) : List String → List String
  | [] => []
  | x :: xs => if x ∈ seen then dedup_aux seen xs else x :: dedup_aux (x :: seen) xs

/-- `dedupFirst l` keeps the first occurrence of each string of `l`. -/
def dedupFirst (l : List String) : List String :=
  dedup_aux [] l

/-- Python `len(set(l))`: the number of distinct elements of `l`. -/
def set_len (l : List String) : Nat :=
  (dedupFirst l).length

/-- Python slice `l[a:b]` for `0 ≤ a ≤ b`: elements at indices
`a, …, b - 1`, silently clamped to the length of `l`. -/
def py_slice (l : List α) (a b : Nat) : List α :=
  (l.take b).drop a

/-! ## Header Scanner (`find_first_empty_row_index`, lines 90-137) -/

/-- Inner `process_csv` (lines 115-122): the 0-based index of the first
all-blank row of the file, or 0 when no such row exists.  The source streams
the rows in chunks of 20 and returns `chunk_start * chunk_size + row_index`,
which is the same index a single linear scan finds. -/
def process_csv (rows : CsvFile) : Nat :=
  match rows.findIdx? is_empty_row with
  | some i => i
  | none => 0

/-- Lines 124-137: one candidate per file; if the candidate list is non-empty
and all candidates equal the first one, the result is `candidate - 1`
(a signed value: all-zero candidates give `-1`), otherwise the fallback `0`.
The source returns this number wrapped in a one-key dictionary
`{"first_empty_row_index": v}`; the embedding returns `v` directly. -/
def find_first_empty_row_index (csv_file_list : List CsvFile) : Int :=
  match csv_file_list.map process_csv with
  | [] => 0
  | c :: rest => if (c :: rest).all (fun i => i == c) then (c : Int) - 1 else 0

/-- Line 312: `skiprows = process_result["first_empty_row_index"] + 1`, the
row count handed to `pd.read_csv` (never negative for scanner outputs). -/
def skiprows_from_scanner (first_empty_row_index : Int) : Nat :=
  (first_empty_row_index + 1).toNat

/-! ## CSV parsing into a data frame (`pd.read_csv(..., skiprows=n)`) -/

/-- A parsed data frame: the header row (column names) and the data rows.
`none` models an input with no rows left after skipping. -/
structure Frame where
  header : Option Row
  data : List Row
deriving DecidableEq

/-- `pd.read_csv(io.StringIO(contents), skiprows=n)`: drop the first `n`
physical rows, then — per pandas' default `skip_blank_lines=True` — discard
blank lines and take the first remaining row as the header, the rest as
data.  An empty line parses to the empty row `[]` (that is the blank line
pandas skips); a row of empty fields such as the line `","` is not a blank
line, though the Header Scanner counts it as an empty row. -/
def read_csv (rows : CsvFile) (skiprows : Nat) : Frame :=
  match (rows.drop skiprows).filter (fun r => !r.isEmpty) with
  | [] => { header := none, data := [] }
  | h :: t => { header := some h, data := t }

/-- `data_frame[name]`: the column under header entry `name`, or a
`KeyError` when the name is absent from the header. -/
def df_column (data_frame : Frame) (name : String) : Except PyErr (List String) :=
  match data_frame.header with
  | none => Except.error PyErr.keyError
  | some hdr =>
    match hdr.findIdx? (fun h => h == name) with
    | some j => Except.ok (data_frame.data.map (fun row => row.getD j ""))
    | none => Except.error PyErr.keyError

/-! ## Metadata Extractor (`extract_info_from_zip`, lines 140-186) -/

/-- The values a single row contributes for one keyword (lines 159-163):
`row[i + 1]` for every `i` with `row[i] == keyword` and `i + 1 < len(row)` —
exactly the second components of matching adjacent pairs. -/
def row_matches (keyword : String) (row : Row) : List String :=
  (row.zip row.tail).filterMap (fun p => if p.1 = keyword then some p.2 else none)

/-- Inner `process_csv_file` (lines 156-163) specialised to one keyword: the
matches found in the first 20 rows of the file, in row order. -/
def process_csv_file (rows : CsvFile) (keyword : String) : List String :=
  (rows.take 20).flatMap (row_matches keyword)

/-- All values collected for one keyword across the member files, in file
order (the source builds this by extending one list per keyword as it walks
the files, which concatenates the per-file match lists in order). -/
def keyword_occurrences (files : List CsvFile) (keyword : String) : List String :=
  files.flatMap (fun rows => process_csv_file rows keyword)

/-- Result values of the extractor: a single string or a list of strings. -/
inductive MetaValue where
  | scalar (value : String)
  | values (value_list : List String)
deriving DecidableEq

/-- Inner `simplify_result_values` (lines 165-167):
`unique_values[0] if len(unique_values) == 1 else unique_values`, where
`unique_values = list(dict.fromkeys(value_list))`. -/
def simplify_result_values (value_list : List String) : MetaValue :=
  match dedupFirst value_list with
  | [v] => MetaValue.scalar v
  | u => MetaValue.values u

/-- Lines 169-186 after archive decoding: one simplified entry per keyword. -/
def extract_info_from_zip (files : List CsvFile) (keywords : List String) :
    List (String × MetaValue) :=
  keywords.map (fun keyword =>
    (keyword, simplify_result_values (keyword_occurrences files keyword)))

/-! ## Container Reader (`get_csv_file_list`, lines 215-243) -/

/-- Lines 233-243: filter the archive name list down to `.csv` members
(case-insensitively), raise `ValueError` when none remain, then keep the
members whose 0-based position is in `filtering["files_to_keep"]` when that
key is present (`none` models the absent key / `KeyError` branch). -/
def get_csv_file_list (namelist : List String) (files_to_keep : Option (List Nat)) :
    Except PyErr (List String) :=
  let csv_file_list := namelist.filter (fun n => ends_with_ci n ".csv")
  if csv_file_list.isEmpty then Except.error PyErr.valueError
  else
    match files_to_keep with
    | some keep =>
        Except.ok ((csv_file_list.enum.filter (fun p => decide (p.1 ∈ keep))).map Prod.snd)
    | none => Except.ok csv_file_list

/-! ## Axis Layout Engine (lines 474-598) -/

/-- Lines 489-495: split the selected axis identifiers by the side flag,
dropping the primary axis `"y"` from both lists. -/
def separate_left_right_axes (y_selection : List String) (y_side : List Bool) :
    List String × List String :=
  (((y_selection.zip y_side).filter (fun p => !p.2 && p.1 != "y")).map Prod.fst,
   ((y_selection.zip y_side).filter (fun p => p.2 && p.1 != "y")).map Prod.fst)

/-- Lines 512-516: the x-axis domain.  Left end `len(set(left)) * 0.05` when
the left list is non-empty (else 0.0); right end `1.05 - len(set(right)) * 0.05`
when the right list is non-empty (else 1.0). -/
def update_x_axis_domain (left_list right_list : List String) : ℚ × ℚ :=
  (if left_list ≠ [] then (set_len left_list : ℚ) * (5/100) else 0,
   if right_list ≠ [] then (105/100 : ℚ) - (set_len right_list : ℚ) * (5/100) else 1)

/-- Python `round(x, 2)` on the exact rational value. -/
def round_to_2 (x : ℚ) : ℚ :=
  ((round (100 * x) : ℤ) : ℚ) / 100

/-- An admissible iteration order of Python `set(l)`: some enumeration of
the distinct elements of `l`, without duplicates.  CPython's hash-salted
set iteration order is unspecified, so properties of the position map are
proved for every such enumeration. -/
def is_set_enum (l enum : List String) : Prop :=
  enum.Nodup ∧ ∀ x, x ∈ enum ↔ x ∈ l

/-- Lines 533-539 relative to one iteration order per set: the name
enumerated `i`-th among the distinct left names gets
`round((i + 1) * 0.05, 2)`, the name enumerated `i`-th among the distinct
right names gets `round(1.0 - i * 0.05, 2)`; `positions.update(...)` lets a
right entry override a left entry with the same name, so the right entries
are consulted first. -/
def calculate_axis_positions_from (left_enum right_enum : List String) (name : String) :
    Option ℚ :=
  (List.lookup name ((List.enumFrom 0 right_enum).map
      (fun p => (p.2, round_to_2 ((1 : ℚ) - (p.1 : ℚ) * (5/100)))))).or
    (List.lookup name ((List.enumFrom 0 left_enum).map
      (fun p => (p.2, round_to_2 (((p.1 : ℚ) + 1) * (5/100))))))

/-- The pipeline's position dictionary.  The executable instance must fix
one iteration order; it uses first-seen order, which `is_set_enum` admits
(see `is_set_enum_dedupFirst`) — theorems about positions quantify over all
admissible orders via `calculate_axis_positions_from`. -/
def calculate_axis_positions (left_list right_list : List String) (name : String) :
    Option ℚ :=
  calculate_axis_positions_from (dedupFirst left_list) (dedupFirst right_list) name

/-- Configuration of one overlay y-axis (lines 588-598), keeping the fields
that vary: fractional position, side, and the units title. -/
structure AxisConfig where
  position : ℚ
  side_right : Bool
  title : String
deriving DecidableEq

/-- Lines 569-598: `positions[name]` always succeeds for names drawn from the
left/right lists, so the `getD 0` default is never taken on those calls. -/
def create_y_axis_config (name : String) (positions : String → Option ℚ)
    (vertical_units : String) (is_right : Bool) : AxisConfig :=
  { position := (positions name).getD 0, side_right := is_right, title := vertical_units }

/-- The assembled figure layout: x-axis domain and titles from the base
configuration (lines 431-444) plus the overlay y-axes dictionary. -/
structure Layout where
  xaxis_domain : ℚ × ℚ
  xaxis_title : String
  yaxis_title : String
  yaxis_position : ℚ
  extra_axes : List (String × AxisConfig)
deriving DecidableEq

/-- Python `d[k] = v` on an insertion-ordered dictionary rendered as an
association list: replace in place when the key exists, else append. -/
def dict_set (d : List (String × AxisConfig)) (k : String) (v : AxisConfig) :
    List (String × AxisConfig) :=
  if d.any (fun p => p.1 == k) then d.map (fun p => if p.1 == k then (k, v) else p)
  else d ++ [(k, v)]

/-- Lines 561-566: write one `yaxisN` entry per name of `left ++ right`,
left names first, flagging the right ones. -/
def add_y_axes_to_layout (layout_configuration : Layout) (left_list right_list : List String)
    (positions : String → Option ℚ) (vertical_units : String) : Layout :=
  ((left_list.map (fun n => (n, false)) ++ right_list.map (fun n => (n, true)))).foldl
    (fun lay p =>
      let cfg := create_y_axis_config p.1 positions vertical_units p.2
      { lay with extra_axes := dict_set lay.extra_axes (replace_y_to_yaxis p.1) cfg })
    layout_configuration

/-! ## Selection and the plotting pipeline (lines 246-415) -/

/-- The `filtering` dictionary (§3 Selection of the spec): the keys the
pipeline reads.  `Option` models a possibly absent key; `legend_group`
models the truthiness of `filtering.get("legend_group")`. -/
structure Filtering where
  records_slice : Nat × Nat
  records_max : Nat
  frames_to_keep : List Nat
  x_axis_data : String
  y_axis_data : List String
  y_axis_selection : Option (List (String × String))
  y_axis_side : Option (List (String × Bool))
  files_to_keep : Option (List Nat)
  legend_group : Bool
  horizontal_units : String
  vertical_units : String

/-- One scatter trace (lines 329-334): sliced x and y series, target axis,
synthesized trace name, optional legend group. -/
structure Scatter where
  x : List String
  y : List String
  yaxis : String
  name : String
  legendgroup : Option String
deriving DecidableEq

/-- Lines 431-444: base layout; the x-axis domain starts at the full span. -/
def create_base_layout_configuration (filtering : Filtering) : Layout :=
  { xaxis_domain := (0, 1), xaxis_title := filtering.horizontal_units,
    yaxis_title := filtering.vertical_units, yaxis_position := 0, extra_axes := [] }

/-- Lines 447-471: read the two axis dictionaries; when either key is absent
the `KeyError` is swallowed (`pass`) and the layout is returned unchanged
(both accesses happen before any mutation). -/
def update_layout_with_y_axes (layout_configuration : Layout) (filtering : Filtering) : Layout :=
  match filtering.y_axis_selection, filtering.y_axis_side with
  | some sel_dict, some side_dict =>
    let y_selection := sel_dict.map Prod.snd
    let y_side := side_dict.map Prod.snd
    let pair := separate_left_right_axes y_selection y_side
    let lay := { layout_configuration with xaxis_domain := update_x_axis_domain pair.1 pair.2 }
    add_y_axes_to_layout lay pair.1 pair.2 (calculate_axis_positions pair.1 pair.2)
      filtering.vertical_units
  | _, _ => layout_configuration

/-- Lines 291-335: slice one member file into scatter traces.  The archive
read raises `KeyError` for a missing member; each column access may raise
`KeyError` (x column first, matching argument evaluation order); nothing in
this function catches either. -/
def process_one_csv_file_for_scatter_data (zip_file : List (String × CsvFile))
    (csv_file_name : String) (filtering : Filtering) (first_empty_row_index : Int) :
    Except PyErr (List Scatter) := do
  let rows ← match List.lookup csv_file_name zip_file with
    | some r => Except.ok r
    | none => Except.error PyErr.keyError
  let data_frame := read_csv rows (skiprows_from_scanner first_empty_row_index)
  let slice_size := filtering.records_slice.2 - filtering.records_slice.1
  let per_frame ← filtering.frames_to_keep.mapM (fun frame_index => do
    let start := filtering.records_max * frame_index + filtering.records_slice.1
    filtering.y_axis_data.mapM (fun channel_name => do
      let trace_name := channel_name ++ " frame" ++ toString (frame_index + 1) ++ " "
        ++ csv_file_name
      let yaxis := match filtering.y_axis_selection with
        | some sel_dict => (List.lookup channel_name sel_dict).getD "y"
        | none => "y"
      let xcol ← df_column data_frame filtering.x_axis_data
      let ycol ← df_column data_frame channel_name
      Except.ok { x := py_slice xcol start (start + slice_size),
                  y := py_slice ycol start (start + slice_size),
                  yaxis := yaxis, name := trace_name,
                  legendgroup := if filtering.legend_group then some channel_name else none }))
  Except.ok per_frame.flatten

/-- Lines 338-373: concatenate the per-file traces in file order.  Despite
the docstring of the source, no `KeyError` is caught here: the first failing
file aborts the whole loop. -/
def process_multiple_csv_files_for_scatter_data (validated_zip : List (String × CsvFile))
    (csv_files : List String) (skiprows : Int) (filtering : Filtering) :
    Except PyErr (List Scatter) := do
  let per_file ← csv_files.mapM (fun csv_file_name =>
    process_one_csv_file_for_scatter_data validated_zip csv_file_name filtering skiprows)
  Except.ok per_file.flatten

/-- The styled figure (lines 246-288): traces, layout, theme flag, fixed
height, legend vertical offset `-0.25 - 0.025 * len(data)`, and the dashed
border following the x-axis domain. -/
structure Figure where
  data : List Scatter
  layout : Layout
  template_light : Bool
  height : Nat
  legend_y : ℚ
  border_x : ℚ × ℚ
deriving DecidableEq

/-- Lines 264-288. -/
def create_and_style_figure (figure_data : List Scatter) (theme_switch : Bool)
    (figure_layout : Layout) : Figure :=
  { data := figure_data, layout := figure_layout, template_light := theme_switch,
    height := 600,
    legend_y := -(25/100 : ℚ) + (-(25/1000 : ℚ) * (figure_data.length : ℚ)),
    border_x := figure_layout.xaxis_domain }

/-- Outcome of a plot request: a figure, or the `PreventUpdate` sentinel the
source returns after catching a decode-stage error. -/
inductive PlotResult where
  | figure (fig : Figure)
  | preventUpdate
deriving DecidableEq

/-- Lines 376-415: the full pipeline.  The `except` clause catches
`binascii.Error`, `BadZipFile` and `ValueError` (modelled by
`PyErr.valueError`) and returns `PreventUpdate`; any other exception —
in particular the `KeyError` of a missing channel — propagates uncaught. -/
def plot_selected_zip_contents (zip_contents : List (String × CsvFile)) (zip_name : String)
    (filtering : Filtering) (use_selected_theme : Bool) : Except PyErr PlotResult :=
  let attempt : Except PyErr Figure := do
    let _ ← if ends_with_ci zip_name ".zip" then Except.ok () else Except.error PyErr.valueError
    let csv_file_names ← get_csv_file_list (zip_contents.map Prod.fst) filtering.files_to_keep
    let member_files ← csv_file_names.mapM (fun n =>
      match List.lookup n zip_contents with
      | some rows => Except.ok rows
      | none => Except.error PyErr.keyError)
    let skiprows := find_first_empty_row_index member_files
    let scatter_data ← process_multiple_csv_files_for_scatter_data zip_contents csv_file_names
      skiprows filtering
    let layout_configuration := update_layout_with_y_axes
      (create_base_layout_configuration filtering) filtering
    Except.ok (create_and_style_figure scatter_data use_selected_theme layout_configuration)
  match attempt with
  | Except.ok fig => Except.ok (PlotResult.figure fig)
  | Except.error PyErr.valueError => Except.ok PlotResult.preventUpdate
  | Except.error e => Except.error e

/-! ## Helper lemmas: Header Scanner -/

/-- When every other file's candidate equals the first file's, the scanner
returns the shared candidate minus one. -/
lemma find_eq_of_agree (f : CsvFile) (fs : List CsvFile)
    (h : ∀ g ∈ fs, process_csv g = process_csv f) :
    find_first_empty_row_index (f :: fs) = (process_csv f : Int) - 1 := by
  have hall : ((process_csv f :: fs.map process_csv).all
      (fun i => i == process_csv f)) = true := by
    simp only [List.all_eq_true, beq_iff_eq, List.mem_cons, List.mem_map]
    rintro i (rfl | ⟨g, hg, rfl⟩)
    · rfl
    · exact h g hg
  simp only [find_first_empty_row_index, List.map_cons]
  simp [hall]

/-- When some file's candidate differs from the first file's, the scanner
returns the fallback 0. -/
lemma find_eq_of_disagree (f : CsvFile) (fs : List CsvFile)
    (hne : ∃ g ∈ fs, process_csv g ≠ process_csv f) :
    find_first_empty_row_index (f :: fs) = 0 := by
  obtain ⟨g, hg, hne⟩ := hne
  have hall : ¬ ((process_csv f :: fs.map process_csv).all
      (fun i => i == process_csv f)) = true := by
    simp only [List.all_eq_true, beq_iff_eq]
    intro h
    exact hne (h (process_csv g) (by exact List.mem_cons_of_mem _ (List.mem_map_of_mem _ hg)))
  simp only [find_first_empty_row_index, List.map_cons]
  simp [hall]

/-- Reading with `skiprows = 1` discards the first physical row outright
and parses the remainder exactly as a skip-nothing read would. -/
lemma read_csv_skip_one (r0 : Row) (rows : CsvFile) :
    read_csv (r0 :: rows) 1 = read_csv rows 0 := rfl

/-! ## Concrete member files used by the counterexamples -/

/-- A file whose first blank row — an empty separator line — is at index 1. -/
def demo_file_blank1 : CsvFile := [["meta"], [], ["hdr"], ["1"]]

/-- A file whose first blank row — an empty separator line — is at index 2. -/
def demo_file_blank2 : CsvFile := [["meta"], ["meta2"], [], ["hdr"], ["1"]]

/-- A file with three rows and no blank row, channels `t`, `ch1`, `ch2`. -/
def demo_rows_a : CsvFile := [["t", "ch1", "ch2"], ["0", "1", "2"], ["1", "3", "4"]]

/-- A file with three rows and no blank row, channels `t`, `ch1` only. -/
def demo_rows_b : CsvFile := [["t", "ch1"], ["0", "1"], ["1", "3"]]

/-- A two-member archive where only the first member has channel `ch2`. -/
def demo_archive : List (String × CsvFile) := [("a.csv", demo_rows_a), ("b.csv", demo_rows_b)]

/-- A Selection asking for channel `ch2` against `demo_archive`. -/
def demo_filtering : Filtering :=
  { records_slice := (0, 2), records_max := 2, frames_to_keep := [0],
    x_axis_data := "t", y_axis_data := ["ch2"], y_axis_selection := none,
    y_axis_side := none, files_to_keep := none, legend_group := false,
    horizontal_units := "s", vertical_units := "V" }

/-! ## Claim theorems -/

/-- C10: for the empty list of member files the Header Scanner returns the
fallback skip count 0 — the all-candidates-equal branch is not taken, no
exception is raised, and a caller selecting zero files gets the no-metadata
default rather than a failure. -/
theorem scanner_empty_list_zero : find_first_empty_row_index [] = 0 := rfl

/-- C1 counterexample: a single member file with no blank row has candidate 0;
the claim demands skip count exactly 0 in that case, but
`find_first_empty_row_index` takes the all-equal branch and returns
`0 - 1 = -1`. -/
theorem skip_count_all_trivial_counterexample :
    find_first_empty_row_index [[["a"], ["b"]]] = -1 ∧ (-1 : Int) ≠ 0 := by
  exact ⟨rfl, by decide⟩

/-- C1 (amended): for every non-empty list of member files, whenever all
per-file candidates are equal the returned skip count is the shared
candidate minus one — including the trivial all-zero case (no blank row in
any file), where the result is `-1`, not the claimed 0 — and whenever two
candidates differ the returned skip count is exactly 0. -/
theorem skip_count_amended (f : CsvFile) (fs : List CsvFile) :
    ((∀ g ∈ fs, process_csv g = process_csv f) →
      find_first_empty_row_index (f :: fs) = (process_csv f : Int) - 1) ∧
    ((∃ g ∈ fs, process_csv g ≠ process_csv f) →
      find_first_empty_row_index (f :: fs) = 0) :=
  ⟨find_eq_of_agree f fs, find_eq_of_disagree f fs⟩

/-- Witness for `skip_count_amended`: two identical files whose first blank
row is at index 2 give skip count 1. -/
theorem skip_count_amended_witness :
    find_first_empty_row_index [[["x"], ["y"], [""]], [["x"], ["y"], [""]]] = 1 := by
  have h := (skip_count_amended [["x"], ["y"], [""]] [[["x"], ["y"], [""]]]).1 (by decide)
  have hc : process_csv [["x"], ["y"], [""]] = 2 := by decide
  rw [h, hc]
  decide

/-- C3 counterexample: two files whose first blank rows are at indices 1 and
2 make the candidates disagree, so the scanner returns 0 — but the
downstream CSV read then uses `skiprows = 0 + 1 = 1`, discarding the first
physical row `["meta"]`: the parsed frame differs from the skip-nothing
parse (both parses share pandas' blank-line skipping), its header being
`["hdr"]` where a zero-row skip would have produced `["meta"]`. -/
theorem disagreement_skips_one_row_counterexample :
    find_first_empty_row_index [demo_file_blank1, demo_file_blank2] = 0 ∧
    skiprows_from_scanner (find_first_empty_row_index [demo_file_blank1, demo_file_blank2])
      = 1 ∧
    read_csv demo_file_blank1 (skiprows_from_scanner
        (find_first_empty_row_index [demo_file_blank1, demo_file_blank2]))
      ≠ read_csv demo_file_blank1 0 ∧
    (read_csv demo_file_blank1 0).header = some ["meta"] ∧
    (read_csv demo_file_blank1 (skiprows_from_scanner
        (find_first_empty_row_index [demo_file_blank1, demo_file_blank2]))).header
      = some ["hdr"] := by
  refine ⟨rfl, rfl, by decide, rfl, rfl⟩

/-- C3 (amended): the Header Scanner is total (it returns a value for every
input file list, never an exception), and when the per-file candidates
disagree it returns 0 — which makes the downstream CSV read use
`skiprows = 0 + 1 = 1`: the member file's first physical row is
unconditionally discarded, and parsing (blank-line skipping included)
proceeds on the remaining rows exactly as a skip-nothing read of them
would — one row, not zero, is lost ahead of header inference. -/
theorem disagreement_skiprows_amended (f : CsvFile) (fs : List CsvFile)
    (hne : ∃ g ∈ fs, process_csv g ≠ process_csv f) :
    find_first_empty_row_index (f :: fs) = 0 ∧
    skiprows_from_scanner (find_first_empty_row_index (f :: fs)) = 1 ∧
    ∀ (r0 : Row) (rows : CsvFile),
      read_csv (r0 :: rows) (skiprows_from_scanner (find_first_empty_row_index (f :: fs)))
        = read_csv rows 0 := by
  have h0 := find_eq_of_disagree f fs hne
  refine ⟨h0, by rw [h0]; rfl, fun r0 rows => ?_⟩
  rw [h0]
  exact read_csv_skip_one r0 rows

/-- Witness for `disagreement_skiprows_amended` on the two demo files with
blank rows at indices 1 and 2. -/
theorem disagreement_skiprows_amended_witness :
    find_first_empty_row_index [demo_file_blank1, demo_file_blank2] = 0 ∧
    skiprows_from_scanner (find_first_empty_row_index [demo_file_blank1, demo_file_blank2])
      = 1 := by
  have h := disagreement_skiprows_amended demo_file_blank1 [demo_file_blank2]
    ⟨demo_file_blank2, by decide, by decide⟩
  exact ⟨h.1, h.2.1⟩

/-- C2: a channel absent from one member file is not recorded per file — the
pandas column access raises `KeyError`, nothing on the path catches it
(despite the docstring of `process_multiple_csv_files_for_scatter_data`
claiming it is "caught and ignored"), and the whole pipeline aborts: the
output is the uncaught error, with no figure and no partial results, even
though the other member file's series was extractable (second conjunct). -/
theorem missing_channel_aborts_pipeline :
    plot_selected_zip_contents demo_archive "data.zip" demo_filtering true
      = Except.error PyErr.keyError ∧
    process_one_csv_file_for_scatter_data demo_archive "a.csv" demo_filtering
        (find_first_empty_row_index [demo_rows_a, demo_rows_b])
      = Except.ok [{ x := ["0", "1"], y := ["2", "4"], yaxis := "y",
                     name := "ch2 frame1 a.csv", legendgroup := none }] := by
  exact ⟨rfl, rfl⟩

/-- C9: the embedded pipeline is a pure function of the archive and the
Selection — two invocations on identical inputs return the identical figure
output, and likewise the Header Scanner returns the identical skip count. -/
theorem pipeline_deterministic :
    (∀ (zip_contents : List (String × CsvFile)) (zip_name : String)
        (filtering : Filtering) (use_selected_theme : Bool),
      plot_selected_zip_contents zip_contents zip_name filtering use_selected_theme
        = plot_selected_zip_contents zip_contents zip_name filtering use_selected_theme) ∧
    (∀ csv_file_list : List CsvFile,
      find_first_empty_row_index csv_file_list = find_first_empty_row_index csv_file_list) :=
  ⟨fun _ _ _ _ => rfl, fun _ => rfl⟩

/-! ## Helper lemmas: first-seen deduplication -/

/-- Membership in `dedup_aux`: an element survives exactly when it occurs in
the list and was not already seen. -/
lemma mem_dedup_aux (l : List String) : ∀ (seen : List String) (a : String),
    a ∈ dedup_aux seen l ↔ a ∈ l ∧ a ∉ seen := by
  induction l with
  | nil => intro seen a; simp [dedup_aux]
  | cons x xs ih =>
    intro seen a
    unfold dedup_aux
    by_cases hx : x ∈ seen
    · rw [if_pos hx, ih]
      constructor
      · rintro ⟨h1, h2⟩; exact ⟨List.mem_cons_of_mem _ h1, h2⟩
      · rintro ⟨h1, h2⟩
        rcases List.mem_cons.mp h1 with rfl | h1
        · exact absurd hx h2
        · exact ⟨h1, h2⟩
    · rw [if_neg hx]
      constructor
      · intro h
        rcases List.mem_cons.mp h with rfl | h
        · exact ⟨List.mem_cons_self a xs, hx⟩
        · obtain ⟨h1, h2⟩ := (ih _ _).mp h
          exact ⟨List.mem_cons_of_mem _ h1, fun hs => h2 (List.mem_cons_of_mem _ hs)⟩
      · rintro ⟨h1, h2⟩
        rcases List.mem_cons.mp h1 with rfl | h1
        · exact List.mem_cons_self a _
        · by_cases hax : a = x
          · subst hax; exact List.mem_cons_self a _
          · refine List.mem_cons_of_mem _ ((ih _ _).mpr ⟨h1, fun hs => ?_⟩)
            rcases List.mem_cons.mp hs with h | h
            · exact hax h
            · exact h2 h

/-- `dedup_aux` keeps a subsequence of its input. -/
lemma dedup_aux_sublist (l : List String) : ∀ seen, List.Sublist (dedup_aux seen l) l := by
  induction l with
  | nil => intro seen; simp [dedup_aux]
  | cons x xs ih =>
    intro seen
    unfold dedup_aux
    by_cases hx : x ∈ seen
    · rw [if_pos hx]; exact (ih seen).cons x
    · rw [if_neg hx]; exact (ih _).cons₂ x

/-- `dedup_aux` never repeats an element. -/
lemma nodup_dedup_aux (l : List String) : ∀ seen, (dedup_aux seen l).Nodup := by
  induction l with
  | nil => intro seen; simp [dedup_aux]
  | cons x xs ih =>
    intro seen
    unfold dedup_aux
    by_cases hx : x ∈ seen
    · rw [if_pos hx]; exact ih seen
    · rw [if_neg hx]
      refine List.nodup_cons.mpr ⟨fun hmem => ?_, ih _⟩
      exact ((mem_dedup_aux xs _ x).mp hmem).2 (List.mem_cons_self x seen)

/-- Membership in `dedupFirst` is membership in the original list. -/
lemma mem_dedupFirst (l : List String) (a : String) : a ∈ dedupFirst l ↔ a ∈ l := by
  simp [dedupFirst, mem_dedup_aux]

/-- `dedupFirst` keeps a subsequence of its input (first-seen order). -/
lemma dedupFirst_sublist (l : List String) : List.Sublist (dedupFirst l) l :=
  dedup_aux_sublist l []

/-- `dedupFirst` produces a duplicate-free list. -/
lemma nodup_dedupFirst (l : List String) : (dedupFirst l).Nodup :=
  nodup_dedup_aux l []

/-- First-seen order is one admissible iteration order of `set(l)`. -/
lemma is_set_enum_dedupFirst (l : List String) : is_set_enum l (dedupFirst l) :=
  ⟨nodup_dedupFirst l, fun x => mem_dedupFirst l x⟩

/-- A list all of whose elements were already seen deduplicates to nothing. -/
lemma dedup_aux_eq_nil (l : List String) : ∀ seen, (∀ x ∈ l, x ∈ seen) →
    dedup_aux seen l = [] := by
  induction l with
  | nil => intro seen _; rfl
  | cons x xs ih =>
    intro seen h
    unfold dedup_aux
    rw [if_pos (h x (List.mem_cons_self x xs))]
    exact ih seen (fun y hy => h y (List.mem_cons_of_mem _ hy))

/-- A non-empty list with a single distinct value deduplicates to exactly
that value. -/
lemma dedupFirst_eq_singleton (l : List String) (v : String)
    (hv : v ∈ l) (hall : ∀ x ∈ l, x = v) : dedupFirst l = [v] := by
  cases l with
  | nil => cases hv
  | cons x xs =>
    have hx : x = v := hall x (List.mem_cons_self x xs)
    subst hx
    unfold dedupFirst dedup_aux
    rw [if_neg (List.not_mem_nil x)]
    rw [dedup_aux_eq_nil xs [x] (fun y hy =>
      List.mem_singleton.mpr (hall y (List.mem_cons_of_mem _ hy)))]

/-! ## Claim theorems: Metadata Extractor and Container Reader -/

/-- C7: the extractor result binds each requested keyword; a keyword with no
occurrence in (the scanned window of) any member file maps to the empty
list; when every occurrence carries one and the same value the result is
that single string (a scalar, not a one-element list); and when at least two
distinct values occur the result is a duplicate-free list of the occurring
values in first-seen order (a subsequence of the occurrence sequence with
the same members). -/
theorem metadata_extractor_spec (files : List CsvFile) (keywords : List String)
    (kw : String) (hkw : kw ∈ keywords) :
    (kw, simplify_result_values (keyword_occurrences files kw))
        ∈ extract_info_from_zip files keywords ∧
    (keyword_occurrences files kw = [] →
      simplify_result_values (keyword_occurrences files kw) = MetaValue.values []) ∧
    (∀ v, v ∈ keyword_occurrences files kw →
      (∀ x ∈ keyword_occurrences files kw, x = v) →
      simplify_result_values (keyword_occurrences files kw) = MetaValue.scalar v) ∧
    ((∃ a ∈ keyword_occurrences files kw, ∃ b ∈ keyword_occurrences files kw, a ≠ b) →
      simplify_result_values (keyword_occurrences files kw)
          = MetaValue.values (dedupFirst (keyword_occurrences files kw)) ∧
        List.Sublist (dedupFirst (keyword_occurrences files kw)) (keyword_occurrences files kw) ∧
        (dedupFirst (keyword_occurrences files kw)).Nodup ∧
        ∀ x, x ∈ dedupFirst (keyword_occurrences files kw)
          ↔ x ∈ keyword_occurrences files kw) := by
  refine ⟨List.mem_map.mpr ⟨kw, hkw, rfl⟩, ?_, ?_, ?_⟩
  · intro h; rw [h]; rfl
  · intro v hv hall
    unfold simplify_result_values
    rw [dedupFirst_eq_singleton _ v hv hall]
  · rintro ⟨a, ha, b, hb, hab⟩
    have ha2 : a ∈ dedupFirst (keyword_occurrences files kw) := (mem_dedupFirst _ _).mpr ha
    have hb2 : b ∈ dedupFirst (keyword_occurrences files kw) := (mem_dedupFirst _ _).mpr hb
    refine ⟨?_, dedupFirst_sublist _, nodup_dedupFirst _, fun x => mem_dedupFirst _ _⟩
    unfold simplify_result_values
    rcases h : dedupFirst (keyword_occurrences files kw) with _ | ⟨x, _ | ⟨y, t⟩⟩
    · exact absurd (h ▸ ha2) (List.not_mem_nil a)
    · rw [h] at ha2 hb2
      simp only [List.mem_singleton] at ha2 hb2
      exact absurd (ha2.trans hb2.symm) hab
    · rfl

/-- Witness for `metadata_extractor_spec`: two member files carrying
`("Horizontal Units", "s")` in their scanned window give the scalar `"s"`. -/
theorem metadata_extractor_spec_witness :
    ("Horizontal Units", MetaValue.scalar "s")
      ∈ extract_info_from_zip [[["Horizontal Units", "s"]], [["x"], ["Horizontal Units", "s"]]]
          ["Horizontal Units"] := by
  have h := metadata_extractor_spec
    [[["Horizontal Units", "s"]], [["x"], ["Horizontal Units", "s"]]]
    ["Horizontal Units"] "Horizontal Units" (by decide)
  have hs := h.2.2.1 "s" (by decide) (by decide)
  have h1 := h.1
  rw [hs] at h1
  exact h1

/-! ## Helper lemmas: Container Reader -/

/-- Indices strictly below the enumeration base never pass the singleton
index filter. -/
lemma enumFrom_filter_none (xs : List String) : ∀ (m k : Nat), k < m →
    (List.enumFrom m xs).filter (fun p => decide (p.1 ∈ [k])) = [] := by
  induction xs with
  | nil => intro m k _; rfl
  | cons x xs ih =>
    intro m k h
    have hd : (decide ((m, x).1 ∈ [k])) = false := by
      simp only [List.mem_singleton, decide_eq_false_iff_not]
      omega
    simp only [List.enumFrom, List.filter_cons, hd, Bool.false_eq_true, if_false]
    exact ih (m + 1) k (Nat.lt_succ_of_lt h)

/-- Filtering an enumeration for the single in-range index `n + i` and
projecting the members yields exactly the element at offset `i`. -/
lemma enumFrom_filter_single (l : List String) : ∀ (n i : Nat) (h : i < l.length),
    ((List.enumFrom n l).filter (fun p => decide (p.1 ∈ [n + i]))).map Prod.snd
      = [l.get ⟨i, h⟩] := by
  induction l with
  | nil => intro n i h; exact absurd h (Nat.not_lt_zero i)
  | cons x xs ih =>
    intro n i h
    cases i with
    | zero =>
      have hd : (decide ((n, x).1 ∈ [n + 0])) = true := by simp
      simp only [List.enumFrom, List.filter_cons, hd, if_true]
      rw [enumFrom_filter_none xs (n + 1) (n + 0) (by omega)]
      rfl
    | succ j =>
      have hd : (decide ((n, x).1 ∈ [n + (j + 1)])) = false := by
        simp only [List.mem_singleton, decide_eq_false_iff_not]
        omega
      simp only [List.enumFrom, List.filter_cons, hd, Bool.false_eq_true, if_false]
      rw [show n + (j + 1) = (n + 1) + j from by omega]
      rw [ih (n + 1) j (Nat.lt_of_succ_lt_succ h)]
      rfl

/-- C8 counterexample: for the archive member list `["b.csv", "a.csv"]` (a
valid container need not store its members in sorted order), the inclusion
filter `{0}` returns `["b.csv"]`, the member at position 0 of the list in
archive order — while the sorted member list puts `"a.csv"` first (second
conjunct: `"a.csv"` precedes `"b.csv"` in lexicographic character order), so
the name at sorted-position 0 is `"a.csv"`, which is not what is returned. -/
theorem csv_filter_sorted_counterexample :
    get_csv_file_list ["b.csv", "a.csv"] (some [0]) = Except.ok ["b.csv"] ∧
    ("a.csv".data) < ("b.csv".data) ∧
    Except.ok ["b.csv"] ≠ (Except.ok ["a.csv"] : Except PyErr (List String)) := by
  refine ⟨rfl, by decide, by decide⟩

/-- C8 (amended): with no inclusion filter and at least one text-suffixed
member, the reader returns exactly the member names with the tabular-text
extension (case-insensitively) in archive order; with filter `{i}` for `i` a
valid position in that archive-order list, it returns exactly the single
name at position `i` of that list (not of its sorted permutation). -/
theorem csv_filter_amended (namelist : List String) (i : Nat) :
    ((namelist.filter (fun n => ends_with_ci n ".csv")) ≠ [] →
      get_csv_file_list namelist none
        = Except.ok (namelist.filter (fun n => ends_with_ci n ".csv"))) ∧
    (∀ h : i < (namelist.filter (fun n => ends_with_ci n ".csv")).length,
      get_csv_file_list namelist (some [i])
        = Except.ok [(namelist.filter (fun n => ends_with_ci n ".csv")).get ⟨i, h⟩]) := by
  constructor
  · intro h
    unfold get_csv_file_list
    rw [if_neg (by simpa [List.isEmpty_iff] using h)]
  · intro h
    have hne : namelist.filter (fun n => ends_with_ci n ".csv") ≠ [] := by
      intro heq
      rw [heq] at h
      exact absurd h (by simp)
    unfold get_csv_file_list
    rw [if_neg (by simpa [List.isEmpty_iff] using hne)]
    have hi := enumFrom_filter_single (namelist.filter (fun n => ends_with_ci n ".csv")) 0 i h
    rw [show (0 : Nat) + i = i from by omega] at hi
    show Except.ok _ = _
    rw [show (namelist.filter (fun n => ends_with_ci n ".csv")).enum
        = List.enumFrom 0 (namelist.filter (fun n => ends_with_ci n ".csv")) from rfl]
    rw [hi]

/-- Witness for `csv_filter_amended`: three members, one non-text; no filter
returns both text members in archive order, filter `{1}` returns the second. -/
theorem csv_filter_amended_witness :
    get_csv_file_list ["a.csv", "b.txt", "c.csv"] none = Except.ok ["a.csv", "c.csv"] ∧
    get_csv_file_list ["a.csv", "b.txt", "c.csv"] (some [1]) = Except.ok ["c.csv"] := by
  have h := csv_filter_amended ["a.csv", "b.txt", "c.csv"] 1
  constructor
  · exact (h.1 (by decide)).trans (by decide)
  · exact (h.2 (by decide)).trans (by decide)

/-! ## Helper lemmas: Axis Layout Engine -/

/-- Names on the left side of the split are never the primary axis. -/
lemma ne_y_of_mem_sep1 {y_selection : List String} {y_side : List Bool} {name : String}
    (h : name ∈ (separate_left_right_axes y_selection y_side).1) : name ≠ "y" := by
  simp only [separate_left_right_axes] at h
  obtain ⟨p, hp, rfl⟩ := List.mem_map.mp h
  exact bne_iff_ne.mp (Bool.and_eq_true_iff.mp (List.mem_filter.mp hp).2).2

/-- Names on the right side of the split are never the primary axis. -/
lemma ne_y_of_mem_sep2 {y_selection : List String} {y_side : List Bool} {name : String}
    (h : name ∈ (separate_left_right_axes y_selection y_side).2) : name ≠ "y" := by
  simp only [separate_left_right_axes] at h
  obtain ⟨p, hp, rfl⟩ := List.mem_map.mp h
  exact bne_iff_ne.mp (Bool.and_eq_true_iff.mp (List.mem_filter.mp hp).2).2

/-- Looking up the `i`-th element of a duplicate-free enumerated right-side
list hits the entry built from index `n + i`. -/
lemma lookup_right_entries : ∀ (l : List String), l.Nodup → ∀ (n i : Nat) (name : String),
    l[i]? = some name →
    List.lookup name ((List.enumFrom n l).map
        (fun p => (p.2, round_to_2 ((1 : ℚ) - (p.1 : ℚ) * (5/100)))))
      = some (round_to_2 ((1 : ℚ) - ((n + i : Nat) : ℚ) * (5/100))) := by
  intro l
  induction l with
  | nil => intro _ n i name h; simp at h
  | cons x xs ih =>
    intro hnd n i name h
    obtain ⟨hx, hnd2⟩ := List.nodup_cons.mp hnd
    cases i with
    | zero =>
      have hx0 : x = name := by simpa using h
      subst hx0
      simp [List.enumFrom, List.lookup]
    | succ j =>
      have hj : xs[j]? = some name := by simpa using h
      have hmem : name ∈ xs := List.getElem?_mem hj
      have hne : (name == x) = false := by
        simp only [beq_eq_false_iff_ne, ne_eq]
        intro he; subst he; exact hx hmem
      simp only [List.enumFrom, List.map_cons, List.lookup, hne]
      rw [show n + (j + 1) = (n + 1) + j from by omega]
      exact ih hnd2 (n + 1) j name hj

/-- Looking up the `i`-th element of a duplicate-free enumerated left-side
list hits the entry built from index `n + i`. -/
lemma lookup_left_entries : ∀ (l : List String), l.Nodup → ∀ (n i : Nat) (name : String),
    l[i]? = some name →
    List.lookup name ((List.enumFrom n l).map
        (fun p => (p.2, round_to_2 (((p.1 : ℚ) + 1) * (5/100)))))
      = some (round_to_2 ((((n + i : Nat) : ℚ) + 1) * (5/100))) := by
  intro l
  induction l with
  | nil => intro _ n i name h; simp at h
  | cons x xs ih =>
    intro hnd n i name h
    obtain ⟨hx, hnd2⟩ := List.nodup_cons.mp hnd
    cases i with
    | zero =>
      have hx0 : x = name := by simpa using h
      subst hx0
      simp [List.enumFrom, List.lookup]
    | succ j =>
      have hj : xs[j]? = some name := by simpa using h
      have hmem : name ∈ xs := List.getElem?_mem hj
      have hne : (name == x) = false := by
        simp only [beq_eq_false_iff_ne, ne_eq]
        intro he; subst he; exact hx hmem
      simp only [List.enumFrom, List.map_cons, List.lookup, hne]
      rw [show n + (j + 1) = (n + 1) + j from by omega]
      exact ih hnd2 (n + 1) j name hj

/-- A name absent from the list is absent from its right-side entries. -/
lemma lookup_right_entries_none : ∀ (l : List String) (n : Nat) (name : String), name ∉ l →
    List.lookup name ((List.enumFrom n l).map
      (fun p => (p.2, round_to_2 ((1 : ℚ) - (p.1 : ℚ) * (5/100))))) = none := by
  intro l
  induction l with
  | nil => intro n name _; rfl
  | cons x xs ih =>
    intro n name hm
    have hne : (name == x) = false := by
      simp only [beq_eq_false_iff_ne, ne_eq]
      intro he; subst he; exact hm (List.mem_cons_self name xs)
    simp only [List.enumFrom, List.map_cons, List.lookup, hne]
    exact ih (n + 1) name (fun h2 => hm (List.mem_cons_of_mem _ h2))

/-- A name absent from the list is absent from its left-side entries. -/
lemma lookup_left_entries_none : ∀ (l : List String) (n : Nat) (name : String), name ∉ l →
    List.lookup name ((List.enumFrom n l).map
      (fun p => (p.2, round_to_2 (((p.1 : ℚ) + 1) * (5/100))))) = none := by
  intro l
  induction l with
  | nil => intro n name _; rfl
  | cons x xs ih =>
    intro n name hm
    have hne : (name == x) = false := by
      simp only [beq_eq_false_iff_ne, ne_eq]
      intro he; subst he; exact hm (List.mem_cons_self name xs)
    simp only [List.enumFrom, List.map_cons, List.lookup, hne]
    exact ih (n + 1) name (fun h2 => hm (List.mem_cons_of_mem _ h2))

/-! ## Claim theorems: Axis Layout Engine -/

/-- C4 counterexample: with zero left axes and one distinct right axis the
code computes the domain `(0, 1.05 - 0.05) = (0, 1)`, but the claimed
formula `(0.05·L, 1 - 0.05·R)` demands `(0, 0.95)`. -/
theorem x_domain_right_formula_counterexample :
    separate_left_right_axes ["y2"] [true] = ([], ["y2"]) ∧
    update_x_axis_domain [] ["y2"] = (0, 1) ∧
    ((0 : ℚ), (1 : ℚ)) ≠ ((5/100 : ℚ) * 0, 1 - (5/100 : ℚ) * 1) := by
  refine ⟨by decide, ?_, ?_⟩
  · have h1 : set_len ["y2"] = 1 := rfl
    simp only [update_x_axis_domain, h1]
    norm_num
  · intro hco
    have h2 := congrArg Prod.snd hco
    norm_num at h2

/-- C4 (amended): the left end of the domain is `0.05 × (distinct left-side
axis count)` (both branches of the source agree when the left list is
empty); the right end is `1.05 - 0.05 × (distinct right-side axis count)`
when any right axis exists — i.e. the right shrink is `0.05 × (R - 1)`, the
outermost right axis sitting on the plot edge — and `1.0` when none does.
In particular 2 distinct left axes and 1 distinct right axis give
`(0.10, 1.00)`. -/
theorem x_domain_amended (left_list right_list : List String) :
    update_x_axis_domain left_list right_list
      = ((set_len left_list : ℚ) * (5/100),
         if right_list = [] then (1 : ℚ)
         else (105/100 : ℚ) - (set_len right_list : ℚ) * (5/100)) ∧
    (set_len left_list = 2 → set_len right_list = 1 →
      update_x_axis_domain left_list right_list = (1/10, 1)) := by
  have hleft : (if left_list ≠ [] then (set_len left_list : ℚ) * (5/100) else 0)
      = (set_len left_list : ℚ) * (5/100) := by
    by_cases h : left_list = []
    · subst h
      rw [if_neg (by simp)]
      rw [show set_len ([] : List String) = 0 from rfl]
      norm_num
    · rw [if_pos h]
  constructor
  · unfold update_x_axis_domain
    rw [hleft]
    by_cases h : right_list = [] <;> simp [h]
  · intro h2 h1
    have hl : left_list ≠ [] := by
      intro he
      rw [he, show set_len ([] : List String) = 0 from rfl] at h2
      exact absurd h2 (by decide)
    have hr : right_list ≠ [] := by
      intro he
      rw [he, show set_len ([] : List String) = 0 from rfl] at h1
      exact absurd h1 (by decide)
    unfold update_x_axis_domain
    rw [if_pos hl, if_pos hr, h2, h1]
    norm_num

/-- Witness for `x_domain_amended`: two distinct left axes and one distinct
right axis yield the domain `(0.10, 1.00)`. -/
theorem x_domain_amended_witness :
    update_x_axis_domain ["y2", "y3"] ["y4"] = (1/10, 1) :=
  (x_domain_amended ["y2", "y3"] ["y4"]).2 rfl rfl

/-- C5 counterexample: a slot assigned to both sides (channel one: `y2` on
the left, channel two: `y2` on the right — a reachable assignment, first
conjunct) receives only its right-side position `1.00`; the claim says each
left overlay axis receives `0.05, 0.10, …`, which would be `0.05` here. -/
theorem axis_positions_both_sides_counterexample :
    separate_left_right_axes ["y2", "y2"] [false, true] = (["y2"], ["y2"]) ∧
    calculate_axis_positions ["y2"] ["y2"] "y2" = some 1 ∧ (1 : ℚ) ≠ 1/20 := by
  refine ⟨by decide, ?_, by norm_num⟩
  have h : calculate_axis_positions ["y2"] ["y2"] "y2"
      = some (round_to_2 ((1 : ℚ) - ((0 : ℕ) : ℚ) * (5/100))) := rfl
  rw [h]
  norm_num [round_to_2, round_eq]

/-- C5 (amended): CPython leaves set iteration order unspecified, so the
positions are pinned only relative to the — arbitrary — enumeration the two
sets yield: for every admissible enumeration of the distinct names, the
name enumerated `i`-th on the right is placed at `round(1.0 - 0.05·i, 2)`,
and the name enumerated `i`-th on the left at `round(0.05·(i + 1), 2)`
unless the same name is also used on the right, in which case its
right-side position overrides (the dictionary update); channels sharing a
slot share one map entry, and the primary axis `y` never appears in the
position map.  The pipeline's executable instance uses first-seen order,
which is admissible (fourth through sixth conjuncts). -/
theorem axis_positions_amended (y_selection : List String) (y_side : List Bool)
    (left_list right_list : List String)
    (hsep : separate_left_right_axes y_selection y_side = (left_list, right_list))
    (left_enum right_enum : List String)
    (hle : is_set_enum left_list left_enum) (hre : is_set_enum right_list right_enum) :
    (∀ (i : ℕ) (name : String), right_enum[i]? = some name →
      calculate_axis_positions_from left_enum right_enum name
        = some (round_to_2 ((1 : ℚ) - (i : ℚ) * (5/100)))) ∧
    (∀ (i : ℕ) (name : String), left_enum[i]? = some name → name ∉ right_list →
      calculate_axis_positions_from left_enum right_enum name
        = some (round_to_2 (((i : ℚ) + 1) * (5/100)))) ∧
    calculate_axis_positions_from left_enum right_enum "y" = none ∧
    is_set_enum left_list (dedupFirst left_list) ∧
    is_set_enum right_list (dedupFirst right_list) ∧
    (∀ name, calculate_axis_positions left_list right_list name
      = calculate_axis_positions_from (dedupFirst left_list) (dedupFirst right_list) name) := by
  refine ⟨?_, ?_, ?_, is_set_enum_dedupFirst _, is_set_enum_dedupFirst _, fun name => rfl⟩
  · intro i name hget
    unfold calculate_axis_positions_from
    rw [lookup_right_entries right_enum hre.1 0 i name hget]
    rw [show ((0 + i : Nat) : ℚ) = (i : ℚ) from by norm_num]
    rfl
  · intro i name hget hnr
    unfold calculate_axis_positions_from
    rw [lookup_right_entries_none right_enum 0 name
      (fun hm => hnr ((hre.2 name).mp hm))]
    rw [lookup_left_entries left_enum hle.1 0 i name hget]
    rw [show ((0 + i : Nat) : ℚ) = (i : ℚ) from by norm_num]
    rfl
  · have h1 : left_list = (separate_left_right_axes y_selection y_side).1 := by rw [hsep]
    have h2 : right_list = (separate_left_right_axes y_selection y_side).2 := by rw [hsep]
    have hyl : "y" ∉ left_list := by
      rw [h1]; exact fun hm => ne_y_of_mem_sep1 hm rfl
    have hyr : "y" ∉ right_list := by
      rw [h2]; exact fun hm => ne_y_of_mem_sep2 hm rfl
    unfold calculate_axis_positions_from
    rw [lookup_right_entries_none right_enum 0 "y"
      (fun hm => hyr ((hre.2 "y").mp hm))]
    rw [lookup_left_entries_none left_enum 0 "y"
      (fun hm => hyl ((hle.2 "y").mp hm))]
    rfl

/-- Witness for `axis_positions_amended`: with the (only) admissible
enumerations of `set(["y2"])` and `set(["y3"])`, `y2` gets position `0.05`,
`y3` gets `1.00`, and `y` gets no entry. -/
theorem axis_positions_amended_witness :
    calculate_axis_positions_from ["y2"] ["y3"] "y2" = some (1/20) ∧
    calculate_axis_positions_from ["y2"] ["y3"] "y3" = some 1 ∧
    calculate_axis_positions_from ["y2"] ["y3"] "y" = none := by
  have h := axis_positions_amended ["y2", "y3"] [false, true] ["y2"] ["y3"] (by decide)
    ["y2"] ["y3"] ⟨by decide, fun x => Iff.rfl⟩ ⟨by decide, fun x => Iff.rfl⟩
  refine ⟨?_, ?_, h.2.2.1⟩
  · have h2 := h.2.1 0 "y2" rfl (by decide)
    rw [h2]
    norm_num [round_to_2, round_eq]
  · have h2 := h.1 0 "y3" rfl
    rw [h2]
    norm_num [round_to_2, round_eq]

/-! ## Helper lemmas: Record Slicer -/

/-- `Except.ok` feeds its value to the continuation. -/
lemma except_bind_ok {α β : Type} (a : α) (f : α → Except PyErr β) :
    (Except.ok a : Except PyErr α) >>= f = f a := rfl

/-- `Except.error` short-circuits the continuation. -/
lemma except_bind_err {α β : Type} (e : PyErr) (f : α → Except PyErr β) :
    (Except.error e : Except PyErr α) >>= f = Except.error e := rfl

/-- `pure` into `Except` is `Except.ok`. -/
lemma except_pure {α : Type} (a : α) : (pure a : Except PyErr α) = Except.ok a := rfl

/-- Monadic map over a one-element list runs the single action. -/
lemma except_mapM_singleton {α β : Type} (g : α → Except PyErr β) (a : α) :
    List.mapM g [a] = g a >>= fun b => Except.ok [b] := by
  cases h : g a with
  | error e =>
    simp [List.mapM, List.mapM.loop, h, except_bind_err]
  | ok b =>
    simp [List.mapM, List.mapM.loop, h, except_bind_ok, except_bind_err, except_pure]

/-- An in-range window slice has exactly the requested length. -/
lemma py_slice_length {α : Type} (l : List α) (a n : Nat) (h : a + n ≤ l.length) :
    (py_slice l a (a + n)).length = n := by
  simp only [py_slice, List.length_drop, List.length_take]
  omega

/-- Element `i` of the window starting at `a` is element `a + i` of the
source list. -/
lemma py_slice_getElem {α : Type} (l : List α) (a n i : Nat) (hi : i < n) :
    (py_slice l a (a + n))[i]? = l[a + i]? := by
  simp only [py_slice]
  rw [List.getElem?_drop, List.getElem?_take]
  rw [if_pos (by omega)]

/-! ## Claim theorem: Record Slicer -/

/-- C6: for a kept frame index `f`, a record window `[s, e)` with
`0 ≤ s ≤ e ≤ records_max`, and a member file whose header-aligned columns
reach through the window (`records_max·f + e` rows), the one produced series
per channel covers exactly the absolute row range
`[records_max·f + s, records_max·f + s + (e - s))`: its length is `e - s`
independently of `f`, and its `i`-th element is source row
`records_max·f + s + i`. -/
theorem record_slicer_window
    (zip_file : List (String × CsvFile)) (csv_file_name : String) (filtering : Filtering)
    (first_empty_row_index : Int) (rows : CsvFile)
    (hz : List.lookup csv_file_name zip_file = some rows)
    (f s e : Nat) (c : String) (xcol ycol : List String)
    (hf : filtering.frames_to_keep = [f])
    (hs : filtering.records_slice = (s, e))
    (hy : filtering.y_axis_data = [c])
    (hx : df_column (read_csv rows (skiprows_from_scanner first_empty_row_index))
            filtering.x_axis_data = Except.ok xcol)
    (hc : df_column (read_csv rows (skiprows_from_scanner first_empty_row_index)) c
            = Except.ok ycol)
    (hse : s ≤ e) (_hem : e ≤ filtering.records_max)
    (hex : filtering.records_max * f + e ≤ xcol.length)
    (hey : filtering.records_max * f + e ≤ ycol.length) :
    ∃ sc : Scatter,
      process_one_csv_file_for_scatter_data zip_file csv_file_name filtering
          first_empty_row_index = Except.ok [sc] ∧
      sc.x = py_slice xcol (filtering.records_max * f + s)
        (filtering.records_max * f + s + (e - s)) ∧
      sc.y = py_slice ycol (filtering.records_max * f + s)
        (filtering.records_max * f + s + (e - s)) ∧
      sc.x.length = e - s ∧ sc.y.length = e - s ∧
      (∀ i, i < e - s → sc.x[i]? = xcol[filtering.records_max * f + s + i]?) ∧
      (∀ i, i < e - s → sc.y[i]? = ycol[filtering.records_max * f + s + i]?) := by
  refine ⟨{ x := py_slice xcol (filtering.records_max * f + s)
              (filtering.records_max * f + s + (e - s)),
            y := py_slice ycol (filtering.records_max * f + s)
              (filtering.records_max * f + s + (e - s)),
            yaxis := (match filtering.y_axis_selection with
              | some sel_dict => (List.lookup c sel_dict).getD "y"
              | none => "y"),
            name := c ++ " frame" ++ toString (f + 1) ++ " " ++ csv_file_name,
            legendgroup := if filtering.legend_group then some c else none },
          ?_, rfl, rfl, ?_, ?_, ?_, ?_⟩
  · unfold process_one_csv_file_for_scatter_data
    rw [hz]
    simp only [hf, hs, hy, except_mapM_singleton, except_bind_ok, except_bind_err,
      except_pure, hx, hc]
    rfl
  · exact py_slice_length xcol _ _ (by omega)
  · exact py_slice_length ycol _ _ (by omega)
  · intro i hi
    exact py_slice_getElem xcol _ _ i hi
  · intro i hi
    exact py_slice_getElem ycol _ _ i hi

/-- A member file with a two-column header and nine data rows. -/
def demo_window_rows : CsvFile :=
  [["t", "c"],
   ["0", "0"], ["1", "10"], ["2", "20"], ["3", "30"], ["4", "40"],
   ["5", "50"], ["6", "60"], ["7", "70"], ["8", "80"]]

/-- A Selection keeping frame 2 of three-record frames, window `[1, 3)`. -/
def demo_window_filtering : Filtering :=
  { records_slice := (1, 3), records_max := 3, frames_to_keep := [2],
    x_axis_data := "t", y_axis_data := ["c"], y_axis_selection := none,
    y_axis_side := none, files_to_keep := none, legend_group := false,
    horizontal_units := "s", vertical_units := "V" }

/-- Witness for `record_slicer_window`: frame 2 with window `[1, 3)` over
three-record frames yields a series of length 2 (absolute rows 7 and 8). -/
theorem record_slicer_window_witness :
    ∃ sc : Scatter,
      process_one_csv_file_for_scatter_data [("w.csv", demo_window_rows)] "w.csv"
          demo_window_filtering (-1) = Except.ok [sc] ∧
      sc.y.length = 2 ∧ sc.y[0]? = some "70" ∧ sc.y[1]? = some "80" := by
  obtain ⟨sc, h1, _, _, _, hlen, _, hget⟩ := record_slicer_window
    [("w.csv", demo_window_rows)] "w.csv" demo_window_filtering (-1) demo_window_rows
    (by decide) 2 1 3 "c"
    ["0", "1", "2", "3", "4", "5", "6", "7", "8"]
    ["0", "10", "20", "30", "40", "50", "60", "70", "80"]
    rfl rfl rfl (by decide) (by decide) (by decide) (by decide) (by decide) (by decide)
  refine ⟨sc, h1, hlen, ?_, ?_⟩
  · have h := hget 0 (by decide)
    simpa using h
  · have h := hget 1 (by decide)
    simpa using h

end SegMem
